import Mathlib

/-!
Verification of the hotel booking engine (`hotel.py`).

The engine stores rooms and bookings in two SQLite tables.  Dates travel as
strings: `parse_date` validates them with `strptime("%Y-%m-%d")`, while the
availability query compares the *stored strings* with SQLite's default
bytewise TEXT collation.  The embedding keeps both representations: parsed
dates (`PDate`) and the stored strings, compared lexicographically.
-/

namespace Hotel

/-- A calendar date as produced by `datetime.date`: year, month, day. -/
structure PDate where
  year : Nat
  month : Nat
  day : Nat
deriving Repr, DecidableEq

/-- Strict chronological order on dates, i.e. comparison of `datetime.date`
values: lexicographic on (year, month, day). -/
def dateLt (a b : PDate) : Bool :=
  decide (a.year < b.year) ||
    (decide (a.year = b.year) && (decide (a.month < b.month) ||
      (decide (a.month = b.month) && decide (a.day < b.day))))

/-- Non-strict chronological order on dates (`<=` on `datetime.date`). -/
def dateLe (a b : PDate) : Bool :=
  dateLt a b || decide (a = b)

/-- Strict lexicographic order on character lists.  SQLite's default BINARY
collation compares TEXT values bytewise; on the ASCII data handled here this
coincides with code-point order. -/
def lexLt : List Char → List Char → Bool
  | _, [] => false
  | [], _ :: _ => true
  | a :: as, b :: bs =>
      decide (a.toNat < b.toNat) || (decide (a.toNat = b.toNat) && lexLt as bs)

/-- `x <= y` on TEXT values as evaluated by SQLite. -/
def strLe (x y : String) : Bool := !(lexLt y.data x.data)

/-- `x >= y` on TEXT values as evaluated by SQLite. -/
def strGe (x y : String) : Bool := strLe y x

/-- Numeric value of a decimal digit character. -/
def digitVal (c : Char) : Nat := c.toNat - 48

/-- Value of a list of decimal digit characters, most significant first
(what `int()` computes on the matched field). -/
def natOfDigits (l : List Char) : Nat :=
  l.foldl (fun a c => a * 10 + digitVal c) 0

/-- The `%Y` field of `strptime`: exactly four decimal digits. -/
def yearField (l : List Char) : Option Nat :=
  if l.length = 4 && l.all Char.isDigit then some (natOfDigits l) else none

/-- The `%m` field of `strptime`: one or two decimal digits with value 1..12
(the regular expression `1[0-2]|0[1-9]|[1-9]`); zero-padding is optional. -/
def monthField (l : List Char) : Option Nat :=
  if (l.length = 1 || l.length = 2) && l.all Char.isDigit &&
      decide (1 ≤ natOfDigits l) && decide (natOfDigits l ≤ 12) then
    some (natOfDigits l)
  else none

/-- The `%d` field of `strptime`: one or two decimal digits with value 1..31
(the regular expression `3[01]|[12]\d|0[1-9]|[1-9]`); zero-padding is
optional. -/
def dayField (l : List Char) : Option Nat :=
  if (l.length = 1 || l.length = 2) && l.all Char.isDigit &&
      decide (1 ≤ natOfDigits l) && decide (natOfDigits l ≤ 31) then
    some (natOfDigits l)
  else none

/-- Split a character list at every dash, keeping empty pieces. -/
def splitDash : List Char → List (List Char)
  | [] => [[]]
  | c :: cs =>
    if c = '-' then [] :: splitDash cs
    else
      match splitDash cs with
      | [] => [[c]]
      | p :: ps => (c :: p) :: ps

/-- Gregorian leap-year rule used by `datetime`. -/
def isLeap (y : Nat) : Bool :=
  (decide (y % 4 = 0) && decide (y % 100 ≠ 0)) || decide (y % 400 = 0)

/-- Number of days in a month, as validated by `datetime.date`. -/
def daysInMonth (y m : Nat) : Nat :=
  if m = 2 then (if isLeap y then 29 else 28)
  else if m = 4 || m = 6 || m = 9 || m = 11 then 30
  else 31

/-- `parse_date`: `datetime.strptime(date_str, "%Y-%m-%d").date()`.
The format requires a four-digit year and one-or-two-digit month and day
separated by dashes, with the whole string consumed; `datetime.date` then
checks `1 <= year <= 9999` and that the day exists in the month. -/
def parse_date (s : String) : Option PDate :=
  match splitDash s.data with
  | [ys, ms, ds] =>
    match yearField ys, monthField ms, dayField ds with
    | some y, some m, some d =>
      if decide (1 ≤ y) && decide (y ≤ 9999) && decide (d ≤ daysInMonth y m) then
        some ⟨y, m, d⟩
      else none
    | _, _, _ => none
  | _ => none

/-- The decimal digit character for `n < 10`. -/
def digitChar (n : Nat) : Char := Char.ofNat (48 + n)

/-- Two-digit zero-padded decimal rendering. -/
def pad2 (n : Nat) : List Char := [digitChar (n / 10), digitChar (n % 10)]

/-- Four-digit zero-padded decimal rendering. -/
def pad4 (n : Nat) : List Char := pad2 (n / 100) ++ pad2 (n % 100)

/-- The canonical `YYYY-MM-DD` rendering of a date (`date.isoformat()`). -/
def renderDate (d : PDate) : String :=
  ⟨pad4 d.year ++ '-' :: (pad2 d.month ++ '-' :: pad2 d.day)⟩

/-- A date string is canonical when it parses and is the zero-padded
`YYYY-MM-DD` rendering of its value.  On canonical strings the TEXT
comparison used by the availability query agrees with date order. -/
def canonicalDate (s : String) : Bool :=
  match parse_date s with
  | some d => renderDate d == s
  | none => false

/-- A row of the `rooms` table. -/
structure Room where
  id : Nat
  room_type : String
  room_number : String
  price : Nat
deriving Repr, DecidableEq

/-- A row of the `bookings` table.  `created_at` and `cancelled_at` hold
`datetime.utcnow().isoformat()` values; the embedding abstracts the wall
clock into a logical counter that advances at every successful write, so
timestamps taken later compare larger. -/
structure Booking where
  id : Nat
  room_id : Nat
  guest_name : String
  check_in : String
  check_out : String
  status : String
  created_at : Nat
  cancelled_at : Option Nat
deriving Repr, DecidableEq

/-- The database state: both tables in rowid order (rows are only ever
appended or updated in place, so a full scan enumerates them in insertion
order), the `AUTOINCREMENT` counter for bookings, and the logical clock. -/
structure DB where
  rooms : List Room
  bookings : List Booking
  next_booking_id : Nat
  clock : Nat
deriving Repr, DecidableEq

/-- The seed catalog inserted by `init_db` into an empty database;
`AUTOINCREMENT` assigns ids 1..5 in insertion order. -/
def seed_rooms : List Room :=
  [⟨1, "Single", "S101", 1500⟩,
   ⟨2, "Single", "S102", 1500⟩,
   ⟨3, "Double", "D201", 2500⟩,
   ⟨4, "Double", "D202", 2500⟩,
   ⟨5, "Deluxe", "L301", 4500⟩]

/-- The state right after `init_db` on a fresh database: seeded catalog,
empty booking ledger. -/
def init_db : DB := ⟨seed_rooms, [], 1, 0⟩

/-- The subquery predicate of `available_rooms`: the booking is a row of
`SELECT room_id FROM bookings WHERE status='active' AND NOT (check_out <= ?
OR check_in >= ?)` contributing room `rid`.  The comparisons are SQLite
TEXT comparisons of the stored strings against the query strings. -/
def blocksQuery (check_in check_out : String) (rid : Nat) (b : Booking) : Bool :=
  b.status == "active" && b.room_id == rid &&
    !(strLe b.check_out check_in || strGe b.check_in check_out)

/-- `available_rooms`: rooms of the requested type whose id is not among the
room ids of active bookings whose stored interval overlaps the requested one
under TEXT comparison.  The query has no ORDER BY; SQLite evaluates it by a
full scan of `rooms`, so rows come back in rowid order. -/
def available_rooms (db : DB) (room_type check_in check_out : String) : List Room :=
  db.rooms.filter (fun r =>
    r.room_type == room_type && !(db.bookings.any (blocksQuery check_in check_out r.id)))

/-- The error cases of `create_booking`; each is raised as a `ValueError`
with a distinct message. -/
inductive CreateError
  | invalidDate
  | invalidRange
  | noAvailability
deriving Repr, DecidableEq

/-- The error cases of `cancel_booking`. -/
inductive CancelError
  | notFound
  | alreadyCancelled
deriving Repr, DecidableEq

/-- `create_booking`: parse both dates (a `strptime` failure on either is
the InvalidDate error), reject a non-positive range, query availability,
take the first available room, and insert a new active booking carrying the
original date strings.  On any error the state is returned unchanged. -/
def create_booking (db : DB) (guest_name room_type check_in check_out : String) :
    Except CreateError (Nat × Room) × DB :=
  match parse_date check_in, parse_date check_out with
  | some ci, some co =>
    if dateLe co ci then (.error .invalidRange, db)
    else
      match available_rooms db room_type check_in check_out with
      | [] => (.error .noAvailability, db)
      | room :: _ =>
        let b : Booking :=
          ⟨db.next_booking_id, room.id, guest_name, check_in, check_out,
            "active", db.clock, none⟩
        (.ok (db.next_booking_id, room),
          { db with
              bookings := db.bookings ++ [b],
              next_booking_id := db.next_booking_id + 1,
              clock := db.clock + 1 })
  | _, _ => (.error .invalidDate, db)

/-- Effect of `UPDATE bookings SET status='cancelled', cancelled_at=? WHERE
id=?` on one row. -/
def cancelRow (clock bid : Nat) (b : Booking) : Booking :=
  if b.id == bid then { b with status := "cancelled", cancelled_at := some clock }
  else b

/-- `cancel_booking`: look the booking up (`fetchone` returns the first row
with the id), fail on a missing or already cancelled booking, otherwise
update every row with that id to cancelled with a cancellation timestamp. -/
def cancel_booking (db : DB) (bid : Nat) : Except CancelError Bool × DB :=
  match db.bookings.find? (fun b => b.id == bid) with
  | none => (.error .notFound, db)
  | some b =>
    if b.status == "cancelled" then (.error .alreadyCancelled, db)
    else
      (.ok true,
        { db with
            bookings := db.bookings.map (cancelRow db.clock bid),
            clock := db.clock + 1 })

/-- A result row of `list_bookings`: `b.*` joined with the room's type,
number and rate. -/
structure BookingView where
  booking : Booking
  room_type : String
  room_number : String
  price : Nat
deriving Repr, DecidableEq

/-- The `JOIN rooms r ON r.id = b.room_id` step for one booking row. -/
def joinRoom (db : DB) (b : Booking) : Option BookingView :=
  (db.rooms.find? (fun r => r.id == b.room_id)).map
    (fun r => ⟨b, r.room_type, r.room_number, r.price⟩)

/-- `ORDER BY b.created_at DESC`: later-created rows first. -/
def byCreatedDesc (x y : BookingView) : Prop :=
  y.booking.created_at ≤ x.booking.created_at

instance : DecidableRel byCreatedDesc :=
  fun x y => Nat.decLe y.booking.created_at x.booking.created_at

instance : IsTotal BookingView byCreatedDesc :=
  ⟨fun a b => Nat.le_total b.booking.created_at a.booking.created_at⟩

instance : IsTrans BookingView byCreatedDesc :=
  ⟨fun _ _ _ h1 h2 => Nat.le_trans h2 h1⟩

/-- `list_bookings`: join bookings with rooms, keep only rows with the given
status when the Python-truthy filter `if status:` fires (so both `None` and
the empty string disable the filter), and sort by creation timestamp
descending. -/
def list_bookings (db : DB) (status : Option String) : List BookingView :=
  let rows :=
    match status with
    | some s => if s = "" then db.bookings else db.bookings.filter (fun b => b.status == s)
    | none => db.bookings
  List.insertionSort byCreatedDesc (rows.filterMap (joinRoom db))

/-- A single engine request: the two mutating operations of the core. -/
inductive Op
  | create (guest_name room_type check_in check_out : String)
  | cancel (bid : Nat)
deriving Repr, DecidableEq

/-- The state transition of one request (result value discarded). -/
def step (db : DB) : Op → DB
  | .create g t ci co => (create_booking db g t ci co).2
  | .cancel bid => (cancel_booking db bid).2

/-- Run a sequence of sequential requests. -/
def run (db : DB) (ops : List Op) : DB := ops.foldl step db

/-- Overlap of the stored intervals of two bookings under SQLite TEXT
comparison: neither interval (string-)ends at or before the start of the
other.  This is the test the availability query applies. -/
def lexOverlap (b b2 : Booking) : Bool :=
  !(strLe b.check_out b2.check_in || strLe b2.check_out b.check_in)

/-- Overlap of the parsed date intervals of two bookings: the half-open
intervals `[check_in, check_out)` have a date in common.  Bookings whose
stored strings do not parse are treated as non-overlapping. -/
def datesOverlap (b b2 : Booking) : Bool :=
  match parse_date b.check_in, parse_date b.check_out,
        parse_date b2.check_in, parse_date b2.check_out with
  | some ci, some co, some ci2, some co2 => dateLt ci2 co && dateLt ci co2
  | _, _, _, _ => false

/-- The parsed date interval of a stored booking intersects the parsed
requested interval: the standard half-open interval test
`b.check_in < check_out AND check_in < b.check_out` on dates. -/
def queryDatesOverlap (check_in check_out : String) (b : Booking) : Bool :=
  match parse_date check_in, parse_date check_out,
        parse_date b.check_in, parse_date b.check_out with
  | some qci, some qco, some bci, some bco => dateLt bci qco && dateLt qci bco
  | _, _, _, _ => false

/-- Two bookings violate invariant I1: both active, same room, and their
date intervals intersect. -/
def datePairViolation (b b2 : Booking) : Bool :=
  b.status == "active" && b2.status == "active" && b.room_id == b2.room_id &&
    datesOverlap b b2

/-- The TEXT-comparison counterpart of `datePairViolation`. -/
def lexPairViolation (b b2 : Booking) : Bool :=
  b.status == "active" && b2.status == "active" && b.room_id == b2.room_id &&
    lexOverlap b b2

/-- No two distinct entries of the list are related by `p`. -/
def pairwiseFree (p : Booking → Booking → Bool) : List Booking → Bool
  | [] => true
  | b :: rest => rest.all (fun b2 => !(p b b2)) && pairwiseFree p rest

/-- Every stored date string of the ledger is canonical `YYYY-MM-DD`. -/
def ledgerCanonical (bs : List Booking) : Bool :=
  bs.all (fun b => canonicalDate b.check_in && canonicalDate b.check_out)

/-- The request supplies canonical `YYYY-MM-DD` date strings (vacuously true
for a cancellation). -/
def opCanonical : Op → Bool
  | .create _ _ ci co => canonicalDate ci && canonicalDate co
  | .cancel _ => true

/-- The first phase of `create_booking`, up to and including the
availability query.  It reads the shared state through its own SQLite
connection and performs no write; the INSERT happens later, in a separate
connection and transaction. -/
def create_check (db : DB) (room_type check_in check_out : String) :
    Except CreateError Room :=
  match parse_date check_in, parse_date check_out with
  | some ci, some co =>
    if dateLe co ci then .error .invalidRange
    else
      match available_rooms db room_type check_in check_out with
      | [] => .error .noAvailability
      | room :: _ => .ok room
  | _, _ => .error .invalidDate

/-- The second phase of `create_booking`: the INSERT statement, run through
a second, fresh SQLite connection, unconditionally appending the booking
chosen by the first phase. -/
def create_insert (db : DB) (guest_name : String) (room : Room)
    (check_in check_out : String) : Nat × DB :=
  (db.next_booking_id,
    { db with
        bookings := db.bookings ++
          [⟨db.next_booking_id, room.id, guest_name, check_in, check_out,
            "active", db.clock, none⟩],
        next_booking_id := db.next_booking_id + 1,
        clock := db.clock + 1 })

/-- The rows of the ledger that are active on a given room. -/
def activeOn (bs : List Booking) (rid : Nat) : List Booking :=
  bs.filter (fun b => b.status == "active" && b.room_id == rid)

/-- Invariant I2 for a single row: the stored date strings parse and the
check-out date lies strictly after the check-in date. -/
def RangeOk (b : Booking) : Prop :=
  ∃ dci dco, parse_date b.check_in = some dci ∧ parse_date b.check_out = some dco ∧
    dateLt dci dco = true

/-- A sample state: the seeded catalog with one active booking on room 1,
as produced by one successful `create_booking` call. -/
def dbOneActive : DB :=
  ⟨seed_rooms, [⟨1, 1, "Ann", "2024-01-10", "2024-01-12", "active", 0, none⟩], 2, 1⟩

/-- A sample state: the seeded catalog with one cancelled booking. -/
def dbOneCancelled : DB :=
  ⟨seed_rooms, [⟨1, 1, "Ann", "2024-01-10", "2024-01-12", "cancelled", 0, some 1⟩], 2, 2⟩

/-- A sample state: the seeded catalog with one active booking on room 1
for the interval [2024-01-10, 2024-01-15). -/
def dbOneFifteen : DB :=
  ⟨seed_rooms, [⟨1, 1, "Ann", "2024-01-10", "2024-01-15", "active", 0, none⟩], 2, 1⟩

/-! ### Order facts for dates and their canonical renderings -/

theorem dateLe_eq_not_dateLt (a b : PDate) : dateLe a b = !dateLt b a := by
  obtain ⟨y1, m1, d1⟩ := a
  obtain ⟨y2, m2, d2⟩ := b
  rw [Bool.eq_iff_iff, Bool.not_eq_true', ← Bool.not_eq_true]
  simp only [dateLe, dateLt, Bool.or_eq_true, Bool.and_eq_true, decide_eq_true_eq,
    PDate.mk.injEq]
  omega

theorem dateLt_irrefl (a : PDate) : dateLt a a = false := by
  simp [dateLt]

theorem char_toNat_inj {c d : Char} (h : c.toNat = d.toNat) : c = d :=
  Char.ext (UInt32.ext h)

theorem lexLt_append_iff (a b x y : List Char) (h : a.length = b.length) :
    lexLt (a ++ x) (b ++ y) = true ↔
      lexLt a b = true ∨ (a = b ∧ lexLt x y = true) := by
  induction a generalizing b with
  | nil =>
    cases b with
    | nil => simp [lexLt]
    | cons d ds => simp at h
  | cons c cs ih =>
    cases b with
    | nil => simp at h
    | cons d ds =>
      simp only [List.length_cons] at h
      have h2 : cs.length = ds.length := by omega
      rcases Nat.lt_trichotomy c.toNat d.toNat with hcd | hcd | hcd
      · simp [List.cons_append, lexLt, hcd]
      · have hc : c = d := char_toNat_inj hcd
        subst hc
        simp only [List.cons_append, lexLt, Bool.or_eq_true, Bool.and_eq_true,
          decide_eq_true_eq, List.cons.injEq, Nat.lt_irrefl, false_or, true_and]
        exact ih ds h2
      · have hnlt : ¬ c.toNat < d.toNat := by omega
        have hneq : ¬ c.toNat = d.toNat := by omega
        have hne2 : c ≠ d := fun e => hneq (congrArg Char.toNat e)
        simp [List.cons_append, lexLt, hnlt, hneq, hne2, List.cons.injEq]

theorem lexLt_append (a b x y : List Char) (h : a.length = b.length) :
    lexLt (a ++ x) (b ++ y) = (lexLt a b || (decide (a = b) && lexLt x y)) := by
  rw [Bool.eq_iff_iff]
  simp [lexLt_append_iff a b x y h]

set_option maxRecDepth 4000 in
theorem pad2_lexLt : ∀ m, m < 100 → ∀ n, n < 100 →
    lexLt (pad2 m) (pad2 n) = decide (m < n) := by decide

set_option maxRecDepth 4000 in
theorem pad2_eq_iff : ∀ m, m < 100 → ∀ n, n < 100 → (pad2 m = pad2 n ↔ m = n) := by decide

theorem pad4_lexLt {m n : Nat} (hm : m < 10000) (hn : n < 10000) :
    lexLt (pad4 m) (pad4 n) = decide (m < n) := by
  have h1 : m / 100 < 100 := by omega
  have h2 : n / 100 < 100 := by omega
  have h3 : m % 100 < 100 := by omega
  have h4 : n % 100 < 100 := by omega
  unfold pad4
  rw [lexLt_append (pad2 (m / 100)) (pad2 (n / 100)) (pad2 (m % 100)) (pad2 (n % 100)) rfl,
    pad2_lexLt _ h1 _ h2, pad2_lexLt _ h3 _ h4]
  rw [Bool.eq_iff_iff]
  simp only [Bool.or_eq_true, Bool.and_eq_true, decide_eq_true_eq, pad2_eq_iff _ h1 _ h2]
  omega

theorem pad4_eq_iff {m n : Nat} (hm : m < 10000) (hn : n < 10000) :
    pad4 m = pad4 n ↔ m = n := by
  have h1 : m / 100 < 100 := by omega
  have h2 : n / 100 < 100 := by omega
  have h3 : m % 100 < 100 := by omega
  have h4 : n % 100 < 100 := by omega
  constructor
  · intro h
    obtain ⟨h5, h6⟩ := List.append_inj h rfl
    have e1 := (pad2_eq_iff _ h1 _ h2).mp h5
    have e2 := (pad2_eq_iff _ h3 _ h4).mp h6
    omega
  · intro h
    rw [h]

theorem lexLt_cons_dash (x y : List Char) : lexLt ('-' :: x) ('-' :: y) = lexLt x y := by
  simp [lexLt]

theorem lexLt_renderDate {a b : PDate}
    (ha1 : a.year < 10000) (ha2 : a.month < 100) (ha3 : a.day < 100)
    (hb1 : b.year < 10000) (hb2 : b.month < 100) (hb3 : b.day < 100) :
    lexLt (renderDate a).data (renderDate b).data = dateLt a b := by
  have e4 : decide (pad4 a.year = pad4 b.year) = decide (a.year = b.year) := by
    rw [Bool.eq_iff_iff]
    simp [pad4_eq_iff ha1 hb1]
  have e2 : decide (pad2 a.month = pad2 b.month) = decide (a.month = b.month) := by
    rw [Bool.eq_iff_iff]
    simp [pad2_eq_iff _ ha2 _ hb2]
  show lexLt (pad4 a.year ++ '-' :: (pad2 a.month ++ '-' :: pad2 a.day))
      (pad4 b.year ++ '-' :: (pad2 b.month ++ '-' :: pad2 b.day)) = dateLt a b
  rw [lexLt_append (pad4 a.year) (pad4 b.year) ('-' :: (pad2 a.month ++ '-' :: pad2 a.day))
      ('-' :: (pad2 b.month ++ '-' :: pad2 b.day)) rfl,
    lexLt_cons_dash,
    lexLt_append (pad2 a.month) (pad2 b.month) ('-' :: pad2 a.day) ('-' :: pad2 b.day) rfl,
    lexLt_cons_dash,
    pad4_lexLt ha1 hb1, pad2_lexLt _ ha2 _ hb2, pad2_lexLt _ ha3 _ hb3, e4, e2]
  rfl

theorem strLe_render {a b : PDate}
    (ha1 : a.year < 10000) (ha2 : a.month < 100) (ha3 : a.day < 100)
    (hb1 : b.year < 10000) (hb2 : b.month < 100) (hb3 : b.day < 100) :
    strLe (renderDate a) (renderDate b) = dateLe a b := by
  unfold strLe
  rw [lexLt_renderDate hb1 hb2 hb3 ha1 ha2 ha3, ← dateLe_eq_not_dateLt]

/-! ### Facts about `parse_date` and canonical strings -/

theorem monthField_bounds {l : List Char} {m : Nat} (h : monthField l = some m) :
    1 ≤ m ∧ m ≤ 12 := by
  unfold monthField at h
  split at h
  · next hg =>
    simp only [Bool.and_eq_true, decide_eq_true_eq] at hg
    injection h with h
    omega
  · exact Option.noConfusion h

theorem dayField_bounds {l : List Char} {m : Nat} (h : dayField l = some m) :
    1 ≤ m ∧ m ≤ 31 := by
  unfold dayField at h
  split at h
  · next hg =>
    simp only [Bool.and_eq_true, decide_eq_true_eq] at hg
    injection h with h
    omega
  · exact Option.noConfusion h

theorem daysInMonth_le (y m : Nat) : daysInMonth y m ≤ 31 := by
  unfold daysInMonth
  split
  · split <;> omega
  · split <;> omega

theorem parse_date_bounds {s : String} {d : PDate} (h : parse_date s = some d) :
    1 ≤ d.year ∧ d.year ≤ 9999 ∧ 1 ≤ d.month ∧ d.month ≤ 12 ∧
      1 ≤ d.day ∧ d.day ≤ 31 := by
  unfold parse_date at h
  split at h
  · split at h
    · next y m dd hy hm hd =>
      split at h
      · next hg =>
        simp only [Bool.and_eq_true, decide_eq_true_eq] at hg
        injection h with h
        subst h
        have hm2 := monthField_bounds hm
        have hd2 := dayField_bounds hd
        have hdm := daysInMonth_le y m
        exact ⟨hg.1.1, hg.1.2, hm2.1, hm2.2, hd2.1, Nat.le_trans hg.2 hdm⟩
      · exact Option.noConfusion h
    · exact Option.noConfusion h
  · exact Option.noConfusion h

theorem canonicalDate_parse {s : String} (h : canonicalDate s = true) :
    ∃ d, parse_date s = some d ∧ renderDate d = s := by
  unfold canonicalDate at h
  split at h
  · next d heq => exact ⟨d, heq, by simpa using h⟩
  · exact Bool.noConfusion h

theorem strLe_canonical {s1 s2 : String} {d1 d2 : PDate}
    (h1 : canonicalDate s1 = true) (h2 : canonicalDate s2 = true)
    (e1 : parse_date s1 = some d1) (e2 : parse_date s2 = some d2) :
    strLe s1 s2 = dateLe d1 d2 := by
  obtain ⟨d1', p1, r1⟩ := canonicalDate_parse h1
  obtain ⟨d2', p2, r2⟩ := canonicalDate_parse h2
  rw [e1] at p1
  rw [e2] at p2
  injection p1 with p1
  injection p2 with p2
  subst p1
  subst p2
  have bounds1 := parse_date_bounds e1
  have bounds2 := parse_date_bounds e2
  rw [← r1, ← r2]
  exact strLe_render (by omega) (by omega) (by omega) (by omega) (by omega) (by omega)

/-! ### The availability query -/

theorem mem_available_rooms {db : DB} {t ci co : String} {r : Room} :
    r ∈ available_rooms db t ci co ↔
      r ∈ db.rooms ∧ r.room_type = t ∧
        ∀ b ∈ db.bookings, blocksQuery ci co r.id b = false := by
  unfold available_rooms
  rw [List.mem_filter]
  simp only [Bool.and_eq_true, beq_iff_eq, Bool.not_eq_true', List.any_eq_false,
    Bool.not_eq_true, and_assoc]

theorem ledgerCanonical_mem {bs : List Booking} {b : Booking}
    (h : ledgerCanonical bs = true) (hb : b ∈ bs) :
    canonicalDate b.check_in = true ∧ canonicalDate b.check_out = true := by
  unfold ledgerCanonical at h
  rw [List.all_eq_true] at h
  have h2 := h b hb
  simp only [Bool.and_eq_true] at h2
  exact h2

theorem blocksQuery_canonical {ci co : String} {rid : Nat} {b : Booking}
    (hci : canonicalDate ci = true) (hco : canonicalDate co = true)
    (hbi : canonicalDate b.check_in = true) (hbo : canonicalDate b.check_out = true) :
    blocksQuery ci co rid b =
      (b.status == "active" && b.room_id == rid && queryDatesOverlap ci co b) := by
  obtain ⟨qci, pci, _⟩ := canonicalDate_parse hci
  obtain ⟨qco, pco, _⟩ := canonicalDate_parse hco
  obtain ⟨bci, pbi, _⟩ := canonicalDate_parse hbi
  obtain ⟨bco, pbo, _⟩ := canonicalDate_parse hbo
  unfold blocksQuery strGe queryDatesOverlap
  rw [pci, pco, pbi, pbo]
  simp only [strLe_canonical hbo hci pbo pci, strLe_canonical hco hbi pco pbi,
    dateLe_eq_not_dateLt, Bool.not_or, Bool.not_not]
  cases dateLt qci bco <;> cases dateLt bci qco <;> simp

theorem mem_available_rooms_canonical {db : DB} {t ci co : String} {r : Room}
    (hci : canonicalDate ci = true) (hco : canonicalDate co = true)
    (hled : ledgerCanonical db.bookings = true) :
    r ∈ available_rooms db t ci co ↔
      r ∈ db.rooms ∧ r.room_type = t ∧
        ∀ b ∈ db.bookings, b.status = "active" → b.room_id = r.id →
          queryDatesOverlap ci co b = false := by
  rw [mem_available_rooms]
  refine and_congr_right fun _ => and_congr_right fun _ => ?_
  constructor
  · intro h b hb hs hr
    obtain ⟨hc1, hc2⟩ := ledgerCanonical_mem hled hb
    have h2 := h b hb
    rw [blocksQuery_canonical hci hco hc1 hc2] at h2
    simpa [hs, hr] using h2
  · intro h b hb
    obtain ⟨hc1, hc2⟩ := ledgerCanonical_mem hled hb
    rw [blocksQuery_canonical hci hco hc1 hc2]
    by_cases hs : b.status = "active"
    · by_cases hr : b.room_id = r.id
      · simp [hs, hr, h b hb hs hr]
      · simp [hr]
    · simp [hs]

/-! ### Pairwise invariant machinery -/

theorem pairwiseFree_append_singleton_iff {p : Booking → Booking → Bool}
    {l : List Booking} {b : Booking} :
    pairwiseFree p (l ++ [b]) = true ↔
      pairwiseFree p l = true ∧ ∀ x ∈ l, p x b = false := by
  induction l with
  | nil => simp [pairwiseFree]
  | cons c cs ih =>
    simp only [List.cons_append, pairwiseFree, List.append_eq, Bool.and_eq_true,
      List.all_eq_true, Bool.not_eq_true', ih, List.mem_append, List.mem_singleton,
      List.forall_mem_cons]
    constructor
    · rintro ⟨hall, hfree, hb⟩
      exact ⟨⟨fun x hx => hall x (Or.inl hx), hfree⟩, hall b (Or.inr rfl), hb⟩
    · rintro ⟨⟨hcx, hfree⟩, hcb, hb⟩
      refine ⟨fun x hx => ?_, hfree, hb⟩
      rcases hx with hx | rfl
      · exact hcx x hx
      · exact hcb

theorem pairwiseFree_map {p : Booking → Booking → Bool} {f : Booking → Booking}
    {l : List Booking}
    (hf : ∀ x y, p x y = false → p (f x) (f y) = false)
    (h : pairwiseFree p l = true) : pairwiseFree p (l.map f) = true := by
  induction l with
  | nil => rfl
  | cons c cs ih =>
    simp only [List.map_cons, pairwiseFree, Bool.and_eq_true, List.all_eq_true,
      Bool.not_eq_true'] at h ⊢
    refine ⟨?_, ih h.2⟩
    intro y hy
    obtain ⟨x, hx, rfl⟩ := List.mem_map.mp hy
    exact hf _ _ (h.1 x hx)

theorem cancelRow_fields (clock bid : Nat) (b : Booking) :
    (cancelRow clock bid b).room_id = b.room_id ∧
      (cancelRow clock bid b).check_in = b.check_in ∧
      (cancelRow clock bid b).check_out = b.check_out ∧
      (cancelRow clock bid b).id = b.id ∧
      ((cancelRow clock bid b).status = b.status ∨
        (cancelRow clock bid b).status = "cancelled") := by
  unfold cancelRow
  split <;> simp

theorem cancelRow_lexPairViolation (clock bid : Nat) :
    ∀ x y, lexPairViolation x y = false →
      lexPairViolation (cancelRow clock bid x) (cancelRow clock bid y) = false := by
  intro x y h
  have fx := cancelRow_fields clock bid x
  have fy := cancelRow_fields clock bid y
  rcases fx.2.2.2.2 with hx | hx
  · rcases fy.2.2.2.2 with hy | hy
    · unfold lexPairViolation lexOverlap at h ⊢
      rw [hx, hy, fx.1, fy.1, fx.2.1, fy.2.1, fx.2.2.1, fy.2.2.1]
      exact h
    · unfold lexPairViolation
      rw [hy]
      simp
  · unfold lexPairViolation
    rw [hx]
    simp

theorem create_preserves_lex {db : DB} (g t ci co : String)
    (h : pairwiseFree lexPairViolation db.bookings = true) :
    pairwiseFree lexPairViolation (create_booking db g t ci co).2.bookings = true := by
  unfold create_booking
  split
  · split
    · exact h
    · split
      · exact h
      · next room tail havail =>
        refine pairwiseFree_append_singleton_iff.mpr ⟨h, ?_⟩
        intro x hx
        have hmem : room ∈ available_rooms db t ci co := by
          rw [havail]
          exact List.mem_cons_self room tail
        obtain ⟨_, _, hall⟩ := mem_available_rooms.mp hmem
        have hbq := hall x hx
        unfold blocksQuery strGe at hbq
        unfold lexPairViolation lexOverlap
        cases h1 : (x.status == "active") <;> cases h2 : (x.room_id == room.id) <;>
          simp_all
  · exact h

theorem cancel_preserves_lex {db : DB} (bid : Nat)
    (h : pairwiseFree lexPairViolation db.bookings = true) :
    pairwiseFree lexPairViolation (cancel_booking db bid).2.bookings = true := by
  unfold cancel_booking
  split
  · exact h
  · split
    · exact h
    · exact pairwiseFree_map (cancelRow_lexPairViolation db.clock bid) h

theorem step_preserves_lex {db : DB} {op : Op}
    (h : pairwiseFree lexPairViolation db.bookings = true) :
    pairwiseFree lexPairViolation (step db op).bookings = true := by
  cases op with
  | create g t ci co => exact create_preserves_lex g t ci co h
  | cancel bid => exact cancel_preserves_lex bid h

theorem run_preserves_lex {ops : List Op} {db : DB}
    (h : pairwiseFree lexPairViolation db.bookings = true) :
    pairwiseFree lexPairViolation (run db ops).bookings = true := by
  induction ops generalizing db with
  | nil => exact h
  | cons op ops ih => exact ih (step_preserves_lex h)

theorem create_preserves_canonical {db : DB} {g t ci co : String}
    (hci : canonicalDate ci = true) (hco : canonicalDate co = true)
    (h : ledgerCanonical db.bookings = true) :
    ledgerCanonical (create_booking db g t ci co).2.bookings = true := by
  unfold create_booking
  split
  · split
    · exact h
    · split
      · exact h
      · unfold ledgerCanonical at h ⊢
        rw [List.all_append]
        simp [List.all_eq_true] at h ⊢
        exact ⟨fun b hb => h b hb, hci, hco⟩
  · exact h

theorem cancel_preserves_canonical {db : DB} {bid : Nat}
    (h : ledgerCanonical db.bookings = true) :
    ledgerCanonical (cancel_booking db bid).2.bookings = true := by
  unfold cancel_booking
  split
  · exact h
  · split
    · exact h
    · unfold ledgerCanonical at h ⊢
      rw [List.all_eq_true] at h ⊢
      intro x hx
      obtain ⟨y, hy, rfl⟩ := List.mem_map.mp hx
      have f := cancelRow_fields db.clock bid y
      rw [f.2.1, f.2.2.1]
      exact h y hy

theorem run_preserves_canonical {ops : List Op} {db : DB}
    (hops : ∀ op ∈ ops, opCanonical op = true)
    (h : ledgerCanonical db.bookings = true) :
    ledgerCanonical (run db ops).bookings = true := by
  induction ops generalizing db with
  | nil => exact h
  | cons op ops ih =>
    refine ih (fun o ho => hops o (List.mem_cons_of_mem op ho)) ?_
    have hop := hops op (List.mem_cons_self op ops)
    cases op with
    | create g t ci co =>
      simp only [opCanonical, Bool.and_eq_true] at hop
      exact create_preserves_canonical hop.1 hop.2 h
    | cancel bid => exact cancel_preserves_canonical h

theorem datesOverlap_eq_lexOverlap {b x : Booking}
    (hb1 : canonicalDate b.check_in = true) (hb2 : canonicalDate b.check_out = true)
    (hx1 : canonicalDate x.check_in = true) (hx2 : canonicalDate x.check_out = true) :
    datesOverlap b x = lexOverlap b x := by
  obtain ⟨dbi, pbi, _⟩ := canonicalDate_parse hb1
  obtain ⟨dbo, pbo, _⟩ := canonicalDate_parse hb2
  obtain ⟨dxi, pxi, _⟩ := canonicalDate_parse hx1
  obtain ⟨dxo, pxo, _⟩ := canonicalDate_parse hx2
  unfold datesOverlap lexOverlap
  rw [pbi, pbo, pxi, pxo]
  simp only [strLe_canonical hb2 hx1 pbo pxi, strLe_canonical hx2 hb1 pxo pbi,
    dateLe_eq_not_dateLt, Bool.not_or, Bool.not_not]

theorem pairwiseFree_date_of_lex {bs : List Booking}
    (hcan : ledgerCanonical bs = true)
    (h : pairwiseFree lexPairViolation bs = true) :
    pairwiseFree datePairViolation bs = true := by
  induction bs with
  | nil => rfl
  | cons b rest ih =>
    unfold ledgerCanonical at hcan
    simp only [List.all_cons, Bool.and_eq_true] at hcan
    obtain ⟨⟨hb1, hb2⟩, hrest⟩ := hcan
    simp only [pairwiseFree, Bool.and_eq_true, List.all_eq_true, Bool.not_eq_true'] at h ⊢
    refine ⟨?_, ih hrest h.2⟩
    intro x hx
    have hxc := ledgerCanonical_mem hrest hx
    unfold datePairViolation
    unfold lexPairViolation at h
    rw [datesOverlap_eq_lexOverlap hb1 hb2 hxc.1 hxc.2]
    exact h.1 x hx

/-! ### Shape of the state after each operation -/

theorem create_booking_rooms (db : DB) (g t ci co : String) :
    (create_booking db g t ci co).2.rooms = db.rooms := by
  unfold create_booking
  split
  · split
    · rfl
    · split
      · rfl
      · rfl
  · rfl

theorem cancel_booking_rooms (db : DB) (bid : Nat) :
    (cancel_booking db bid).2.rooms = db.rooms := by
  unfold cancel_booking
  split
  · rfl
  · split
    · rfl
    · rfl

theorem step_rooms (db : DB) (op : Op) : (step db op).rooms = db.rooms := by
  cases op with
  | create g t ci co => exact create_booking_rooms db g t ci co
  | cancel bid => exact cancel_booking_rooms db bid

theorem run_rooms (db : DB) (ops : List Op) : (run db ops).rooms = db.rooms := by
  induction ops generalizing db with
  | nil => rfl
  | cons op ops ih => exact (ih (step db op)).trans (step_rooms db op)

theorem create_booking_bookings_shape (db : DB) (g t ci co : String) :
    (create_booking db g t ci co).2.bookings = db.bookings ∨
      ∃ b : Booking, (create_booking db g t ci co).2.bookings = db.bookings ++ [b] := by
  unfold create_booking
  split
  · split
    · exact Or.inl rfl
    · split
      · exact Or.inl rfl
      · exact Or.inr ⟨_, rfl⟩
  · exact Or.inl rfl

theorem cancel_booking_bookings_shape (db : DB) (bid : Nat) :
    (cancel_booking db bid).2.bookings = db.bookings ∨
      (cancel_booking db bid).2.bookings = db.bookings.map (cancelRow db.clock bid) := by
  unfold cancel_booking
  split
  · exact Or.inl rfl
  · split
    · exact Or.inl rfl
    · exact Or.inr rfl

theorem step_bookings_shape (db : DB) (op : Op) :
    ∃ c bid : Nat,
      (step db op).bookings = db.bookings ∨
      (∃ b : Booking, (step db op).bookings = db.bookings ++ [b]) ∨
      (step db op).bookings = db.bookings.map (cancelRow c bid) := by
  cases op with
  | create g t ci co =>
    rcases create_booking_bookings_shape db g t ci co with h | ⟨b, h⟩
    · exact ⟨0, 0, Or.inl h⟩
    · exact ⟨0, 0, Or.inr (Or.inl ⟨b, h⟩)⟩
  | cancel bid =>
    rcases cancel_booking_bookings_shape db bid with h | h
    · exact ⟨db.clock, bid, Or.inl h⟩
    · exact ⟨db.clock, bid, Or.inr (Or.inr h)⟩

theorem step_row (db : DB) (op : Op) (i : Nat) {b : Booking}
    (h : db.bookings[i]? = some b) :
    ∃ c bid : Nat,
      (step db op).bookings[i]? = some b ∨
      (step db op).bookings[i]? = some (cancelRow c bid b) := by
  obtain ⟨hlt, _⟩ := List.getElem?_eq_some.mp h
  obtain ⟨c, bid, hs | ⟨b2, hs⟩ | hs⟩ := step_bookings_shape db op
  · exact ⟨c, bid, Or.inl (by rw [hs, h])⟩
  · refine ⟨c, bid, Or.inl ?_⟩
    rw [hs, List.getElem?_append_left hlt, h]
  · refine ⟨c, bid, Or.inr ?_⟩
    rw [hs, List.getElem?_map, h]
    rfl

theorem run_row (db : DB) (ops : List Op) (i : Nat) {b : Booking}
    (h : db.bookings[i]? = some b) :
    ∃ b2 : Booking, (run db ops).bookings[i]? = some b2 ∧
      b2.check_in = b.check_in ∧ b2.check_out = b.check_out ∧
      (b.status = "cancelled" → b2.status = "cancelled") := by
  induction ops generalizing db b with
  | nil => exact ⟨b, h, rfl, rfl, fun hs => hs⟩
  | cons op ops ih =>
    obtain ⟨c, bid, hs | hs⟩ := step_row db op i h
    · exact ih _ hs
    · obtain ⟨b2, hb2, e1, e2, e3⟩ := ih _ hs
      have f := cancelRow_fields c bid b
      refine ⟨b2, hb2, e1.trans f.2.1, e2.trans f.2.2.1, fun hsb => e3 ?_⟩
      rcases f.2.2.2.2 with h4 | h4
      · rw [h4, hsb]
      · exact h4

/-! ### Range validity (invariant I2) -/

theorem create_preserves_ranges {db : DB} {g t ci co : String}
    (h : ∀ b ∈ db.bookings, RangeOk b) :
    ∀ b ∈ (create_booking db g t ci co).2.bookings, RangeOk b := by
  unfold create_booking
  split
  · next dci dco hci hco =>
    split
    · exact h
    · next hle =>
      split
      · exact h
      · intro b hb
        rcases List.mem_append.mp hb with hb | hb
        · exact h b hb
        · rw [List.mem_singleton] at hb
          subst hb
          refine ⟨dci, dco, hci, hco, ?_⟩
          rw [Bool.not_eq_true, dateLe_eq_not_dateLt] at hle
          simpa using hle
  · exact h

theorem cancel_preserves_ranges {db : DB} {bid : Nat}
    (h : ∀ b ∈ db.bookings, RangeOk b) :
    ∀ b ∈ (cancel_booking db bid).2.bookings, RangeOk b := by
  unfold cancel_booking
  split
  · exact h
  · split
    · exact h
    · intro b hb
      obtain ⟨y, hy, rfl⟩ := List.mem_map.mp hb
      have f := cancelRow_fields db.clock bid y
      obtain ⟨dci, dco, h1, h2, h3⟩ := h y hy
      exact ⟨dci, dco, by rw [f.2.1]; exact h1, by rw [f.2.2.1]; exact h2, h3⟩

theorem run_preserves_ranges {ops : List Op} {db : DB}
    (h : ∀ b ∈ db.bookings, RangeOk b) :
    ∀ b ∈ (run db ops).bookings, RangeOk b := by
  induction ops generalizing db with
  | nil => exact h
  | cons op ops ih =>
    refine ih ?_
    cases op with
    | create g t ci co => exact create_preserves_ranges h
    | cancel bid => exact cancel_preserves_ranges h

/-- `create_booking` is literally the check phase followed, on success, by
the insert phase; the two phases run in separate SQLite connections. -/
theorem create_booking_eq_phases (db : DB) (g t ci co : String) :
    create_booking db g t ci co =
      match create_check db t ci co with
      | .error e => (.error e, db)
      | .ok room =>
        (.ok ((create_insert db g room ci co).1, room),
          (create_insert db g room ci co).2) := by
  unfold create_booking create_check create_insert
  split
  · split
    · rfl
    · split
      · rfl
      · rfl
  · rfl

/-- Branch analysis of `create_booking`: the four outcomes in check order. -/
theorem create_booking_branches (db : DB) (g t ci co : String) :
    ((parse_date ci = none ∨ parse_date co = none) →
      create_booking db g t ci co = (.error .invalidDate, db)) ∧
    (∀ dci dco, parse_date ci = some dci → parse_date co = some dco →
      dateLe dco dci = true →
      create_booking db g t ci co = (.error .invalidRange, db)) ∧
    (∀ dci dco, parse_date ci = some dci → parse_date co = some dco →
      dateLe dco dci = false →
      available_rooms db t ci co = [] →
      create_booking db g t ci co = (.error .noAvailability, db)) ∧
    (∀ dci dco room tail, parse_date ci = some dci → parse_date co = some dco →
      dateLe dco dci = false →
      available_rooms db t ci co = room :: tail →
      create_booking db g t ci co =
        (.ok (db.next_booking_id, room),
          { db with
              bookings := db.bookings ++
                [⟨db.next_booking_id, room.id, g, ci, co, "active", db.clock, none⟩],
              next_booking_id := db.next_booking_id + 1,
              clock := db.clock + 1 })) := by
  refine ⟨?_, ?_, ?_, ?_⟩
  · intro h
    unfold create_booking
    rcases h with h | h
    · rw [h]
    · cases hci : parse_date ci <;> rw [h]
  · intro dci dco h1 h2 hle
    unfold create_booking
    rw [h1, h2]
    simp [hle]
  · intro dci dco h1 h2 hle havail
    unfold create_booking
    rw [h1, h2]
    simp [hle, havail]
  · intro dci dco room tail h1 h2 hle havail
    unfold create_booking
    rw [h1, h2]
    simp [hle, havail]

/-! ### Claims -/

/-- C1, counterexample to the claim as stated: `strptime("%Y-%m-%d")` also
accepts dates without zero padding, and the availability query compares the
stored strings bytewise, so after the two admissions below room 1 carries
two active bookings whose date intervals [Jan 5, Jan 9) and [Jan 6, Jan 7)
intersect. -/
theorem C1_counterexample :
    (run init_db
        [.create "Ann" "Single" "2024-1-5" "2024-1-9",
         .create "Bob" "Single" "2024-01-06" "2024-01-07"]).bookings =
      [⟨1, 1, "Ann", "2024-1-5", "2024-1-9", "active", 0, none⟩,
       ⟨2, 1, "Bob", "2024-01-06", "2024-01-07", "active", 1, none⟩] ∧
    pairwiseFree datePairViolation
      (run init_db
        [.create "Ann" "Single" "2024-1-5" "2024-1-9",
         .create "Bob" "Single" "2024-01-06" "2024-01-07"]).bookings = false := by
  constructor
  · rfl
  · rfl

/-- C1 (amended): for every sequence of sequential CreateBooking and
CancelBooking operations starting from the empty ledger in which every
CreateBooking supplies canonical zero-padded `YYYY-MM-DD` date strings, no
two active bookings on the same room have intersecting half-open
`[check_in, check_out)` date intervals.  Instantiating at every prefix of a
sequence gives the invariant after every operation. -/
theorem C1_no_active_overlap (ops : List Op)
    (hops : ∀ op ∈ ops, opCanonical op = true) :
    pairwiseFree datePairViolation (run init_db ops).bookings = true :=
  pairwiseFree_date_of_lex (run_preserves_canonical hops rfl) (run_preserves_lex rfl)

/-- C1, witness: a concrete canonical sequence (two admissions and one
cancellation) on which the amended invariant theorem applies. -/
theorem C1_witness :
    pairwiseFree datePairViolation
      (run init_db
        [.create "Ann" "Single" "2024-01-10" "2024-01-12",
         .create "Bob" "Single" "2024-01-10" "2024-01-12",
         .cancel 1]).bookings = true :=
  C1_no_active_overlap
    [.create "Ann" "Single" "2024-01-10" "2024-01-12",
     .create "Bob" "Single" "2024-01-10" "2024-01-12",
     .cancel 1]
    (by decide)

/-- C2: over canonical `YYYY-MM-DD` strings, `available_rooms` returns
exactly the rooms of the requested type for which no active booking's
parsed date interval intersects the requested half-open interval, and a
booking that merely touches the requested interval at a boundary (its
check-out equals the requested check-in, or its check-in equals the
requested check-out) never excludes a room. -/
theorem C2_available_rooms_exact {db : DB} {t ci co : String} {r : Room}
    (hci : canonicalDate ci = true) (hco : canonicalDate co = true)
    (hled : ledgerCanonical db.bookings = true) :
    (r ∈ available_rooms db t ci co ↔
      r ∈ db.rooms ∧ r.room_type = t ∧
        ∀ b ∈ db.bookings, b.status = "active" → b.room_id = r.id →
          queryDatesOverlap ci co b = false) ∧
    (∀ b ∈ db.bookings, b.check_out = ci ∨ b.check_in = co →
      queryDatesOverlap ci co b = false) := by
  obtain ⟨qci, pci, _⟩ := canonicalDate_parse hci
  obtain ⟨qco, pco, _⟩ := canonicalDate_parse hco
  refine ⟨mem_available_rooms_canonical hci hco hled, ?_⟩
  intro b _ hor
  rcases hor with he | he
  · unfold queryDatesOverlap
    rw [pci, pco, he, pci]
    cases hpbi : parse_date b.check_in
    · rfl
    · simp [dateLt_irrefl]
  · unfold queryDatesOverlap
    rw [pci, pco, he, pco]
    cases hpbo : parse_date b.check_out
    · rfl
    · simp [dateLt_irrefl]

/-- C2, witness: after booking room S101 for [Jan 10, Jan 15), S101 is still
returned as available for the boundary-touching interval [Jan 15, Jan 18). -/
theorem C2_witness :
    (⟨1, "Single", "S101", 1500⟩ : Room) ∈
      available_rooms dbOneFifteen "Single" "2024-01-15" "2024-01-18" :=
  ((C2_available_rooms_exact (by decide) (by decide) (by decide)).1).mpr (by decide)

/-- C3: the claim demands an atomic admission unit, but the availability
check and the INSERT run in separate connections with no lock or
transaction spanning them.  Interleaving two admissions for the last Deluxe
room (both checks read the initial state, then both inserts commit) makes
both callers succeed and leaves two active, date-overlapping bookings on
room 5, contradicting the claimed outcome. -/
theorem C3_race_both_admitted :
    create_check init_db "Deluxe" "2024-01-10" "2024-01-12" =
        .ok ⟨5, "Deluxe", "L301", 4500⟩ ∧
    create_check init_db "Deluxe" "2024-01-11" "2024-01-13" =
        .ok ⟨5, "Deluxe", "L301", 4500⟩ ∧
    (activeOn
        (create_insert
          (create_insert init_db "Gil" ⟨5, "Deluxe", "L301", 4500⟩
            "2024-01-10" "2024-01-12").2
          "Hana" ⟨5, "Deluxe", "L301", 4500⟩ "2024-01-11" "2024-01-13").2.bookings
        5).length = 2 ∧
    pairwiseFree datePairViolation
      (create_insert
        (create_insert init_db "Gil" ⟨5, "Deluxe", "L301", 4500⟩
          "2024-01-10" "2024-01-12").2
        "Hana" ⟨5, "Deluxe", "L301", 4500⟩ "2024-01-11" "2024-01-13").2.bookings =
      false := by
  refine ⟨rfl, rfl, rfl, rfl⟩

/-- C4: in every state reachable from the seeded catalog, `available_rooms`
returns rooms in strictly ascending identifier order (SQLite scans the
never-updated `rooms` table in rowid order and the filter preserves it), so
repeated queries against an unchanged ledger return the same sequence, and
a successful `create_booking` selects the available room with the lowest
identifier. -/
theorem C4_order_and_first_fit (ops : List Op) (t ci co : String) :
    List.Pairwise (fun a b : Room => a.id < b.id)
      (available_rooms (run init_db ops) t ci co) ∧
    ∀ g bid room db2,
      create_booking (run init_db ops) g t ci co = (.ok (bid, room), db2) →
      room ∈ available_rooms (run init_db ops) t ci co ∧
      ∀ r2 ∈ available_rooms (run init_db ops) t ci co, room.id ≤ r2.id := by
  have hsorted : List.Pairwise (fun a b : Room => a.id < b.id) (run init_db ops).rooms := by
    rw [run_rooms]
    decide
  have hav : List.Pairwise (fun a b : Room => a.id < b.id)
      (available_rooms (run init_db ops) t ci co) := by
    unfold available_rooms
    exact hsorted.filter _
  refine ⟨hav, ?_⟩
  intro g bid room db2 hcreate
  have hhead : ∃ tail, available_rooms (run init_db ops) t ci co = room :: tail := by
    unfold create_booking at hcreate
    split at hcreate
    · split at hcreate
      · simp at hcreate
      · split at hcreate
        · simp at hcreate
        · next room2 tail2 havail =>
          simp only [Prod.mk.injEq, Except.ok.injEq] at hcreate
          exact ⟨tail2, by rw [havail, hcreate.1.2]⟩
    · simp at hcreate
  obtain ⟨tail, he⟩ := hhead
  constructor
  · rw [he]
    exact List.mem_cons_self room tail
  · intro r2 hr2
    rw [he] at hav hr2
    rcases List.mem_cons.mp hr2 with rfl | hr2
    · exact Nat.le_refl _
    · exact Nat.le_of_lt ((List.pairwise_cons.mp hav).1 r2 hr2)

/-- C4, witness: on the fresh catalog, the query result is sorted by id and
the admitted room S101 is the least-id available Single room. -/
theorem C4_witness :
    (⟨1, "Single", "S101", 1500⟩ : Room) ∈
      available_rooms init_db "Single" "2024-01-10" "2024-01-12" ∧
    ∀ r2 ∈ available_rooms init_db "Single" "2024-01-10" "2024-01-12",
      (⟨1, "Single", "S101", 1500⟩ : Room).id ≤ r2.id :=
  (C4_order_and_first_fit [] "Single" "2024-01-10" "2024-01-12").2 "Gil" 1
    ⟨1, "Single", "S101", 1500⟩
    (create_booking init_db "Gil" "Single" "2024-01-10" "2024-01-12").2 rfl

/-- C5: `create_booking` validates in exactly this order: InvalidDate when
either date string fails `strptime`, then InvalidRange when the parsed
check-out is not strictly after the parsed check-in, then NoAvailability
when the availability query returns no room; otherwise it inserts exactly
one new active booking carrying the fresh id and returns that id with the
first available room. -/
theorem C5_check_order (db : DB) (g t ci co : String) :
    ((parse_date ci = none ∨ parse_date co = none) →
      create_booking db g t ci co = (.error .invalidDate, db)) ∧
    (∀ dci dco, parse_date ci = some dci → parse_date co = some dco →
      dateLe dco dci = true →
      create_booking db g t ci co = (.error .invalidRange, db)) ∧
    (∀ dci dco, parse_date ci = some dci → parse_date co = some dco →
      dateLe dco dci = false →
      available_rooms db t ci co = [] →
      create_booking db g t ci co = (.error .noAvailability, db)) ∧
    (∀ dci dco room tail, parse_date ci = some dci → parse_date co = some dco →
      dateLe dco dci = false →
      available_rooms db t ci co = room :: tail →
      create_booking db g t ci co =
        (.ok (db.next_booking_id, room),
          { db with
              bookings := db.bookings ++
                [⟨db.next_booking_id, room.id, g, ci, co, "active", db.clock, none⟩],
              next_booking_id := db.next_booking_id + 1,
              clock := db.clock + 1 })) :=
  create_booking_branches db g t ci co

/-- C5, witness: one concrete input per branch, in check order: malformed
month, inverted range, unknown room type, and a successful Deluxe
admission. -/
theorem C5_witness :
    create_booking init_db "Gil" "Single" "2024-13-01" "2024-01-05" =
        (.error .invalidDate, init_db) ∧
    create_booking init_db "Gil" "Single" "2024-02-01" "2024-01-30" =
        (.error .invalidRange, init_db) ∧
    create_booking init_db "Gil" "Suite" "2024-01-10" "2024-01-12" =
        (.error .noAvailability, init_db) ∧
    create_booking init_db "Gil" "Deluxe" "2024-01-10" "2024-01-12" =
      (.ok (1, ⟨5, "Deluxe", "L301", 4500⟩),
        ⟨seed_rooms,
          [⟨1, 5, "Gil", "2024-01-10", "2024-01-12", "active", 0, none⟩], 2, 1⟩) := by
  refine ⟨(C5_check_order init_db "Gil" "Single" "2024-13-01" "2024-01-05").1
      (Or.inl (by decide)),
    (C5_check_order init_db "Gil" "Single" "2024-02-01" "2024-01-30").2.1
      ⟨2024, 2, 1⟩ ⟨2024, 1, 30⟩ (by decide) (by decide) (by decide),
    (C5_check_order init_db "Gil" "Suite" "2024-01-10" "2024-01-12").2.2.1
      ⟨2024, 1, 10⟩ ⟨2024, 1, 12⟩ (by decide) (by decide) (by decide) (by rfl),
    (C5_check_order init_db "Gil" "Deluxe" "2024-01-10" "2024-01-12").2.2.2
      ⟨2024, 1, 10⟩ ⟨2024, 1, 12⟩ ⟨5, "Deluxe", "L301", 4500⟩ [] (by decide) (by decide)
      (by decide) (by rfl)⟩

/-- C7: every failing `create_booking` call returns the ledger exactly as it
was: no error path writes anything. -/
theorem C7_error_leaves_state (db : DB) (g t ci co : String) (e : CreateError)
    (h : (create_booking db g t ci co).1 = .error e) :
    (create_booking db g t ci co).2 = db := by
  revert h
  unfold create_booking
  split
  · split
    · intro _
      rfl
    · split
      · intro _
        rfl
      · intro h
        exact absurd h (by simp)
  · intro _
    rfl

/-- C7, witness: a malformed check-in date leaves the state untouched. -/
theorem C7_witness :
    (create_booking init_db "Gil" "Single" "not-a-date" "2024-01-05").2 = init_db :=
  C7_error_leaves_state init_db "Gil" "Single" "not-a-date" "2024-01-05"
    .invalidDate rfl

/-- C6: `cancel_booking` fails with NotFound when no row has the id, fails
with AlreadyCancelled when the looked-up row is already cancelled, and
otherwise reports success, turning the row into a cancelled row stamped
with the cancellation time, so that a second cancellation of the same id
fails with AlreadyCancelled; and once a row is cancelled no sequence of
operations ever makes it active again. -/
theorem C6_cancel_transitions (db : DB) (bid : Nat) :
    (db.bookings.find? (fun b => b.id == bid) = none →
      cancel_booking db bid = (.error .notFound, db)) ∧
    (∀ b, db.bookings.find? (fun b2 => b2.id == bid) = some b →
      b.status = "cancelled" →
      cancel_booking db bid = (.error .alreadyCancelled, db)) ∧
    (∀ b, db.bookings.find? (fun b2 => b2.id == bid) = some b →
      b.status ≠ "cancelled" →
      (cancel_booking db bid).1 = .ok true ∧
      (cancel_booking db bid).2.bookings = db.bookings.map (cancelRow db.clock bid) ∧
      (cancel_booking db bid).2.bookings.find? (fun b2 => b2.id == bid) =
        some { b with status := "cancelled", cancelled_at := some db.clock } ∧
      (cancel_booking (cancel_booking db bid).2 bid).1 = .error .alreadyCancelled) ∧
    (∀ (ops : List Op) (i : Nat) (b : Booking),
      db.bookings[i]? = some b → b.status = "cancelled" →
      ∃ b2, (run db ops).bookings[i]? = some b2 ∧ b2.status = "cancelled") := by
  have hsecond : ∀ db2 b2, b2.status = "cancelled" →
      db2.bookings.find? (fun x => x.id == bid) = some b2 →
      (cancel_booking db2 bid).1 = .error .alreadyCancelled := by
    intro db2 b2 hs hf
    unfold cancel_booking
    rw [hf]
    simp [hs]
  refine ⟨?_, ?_, ?_, ?_⟩
  · intro h
    unfold cancel_booking
    rw [h]
  · intro b hf hs
    unfold cancel_booking
    rw [hf]
    simp [hs]
  · intro b hf hs
    have hfb := List.find?_some hf
    have hcond : ¬((b.status == "cancelled") = true) := by
      simpa using hs
    have hbk : (cancel_booking db bid).2.bookings =
        db.bookings.map (cancelRow db.clock bid) := by
      unfold cancel_booking
      rw [hf]
      simp [hcond]
    have hfind : (cancel_booking db bid).2.bookings.find? (fun b2 => b2.id == bid) =
        some { b with status := "cancelled", cancelled_at := some db.clock } := by
      rw [hbk, List.find?_map]
      have hpf : ((fun b2 : Booking => b2.id == bid) ∘ cancelRow db.clock bid) =
          (fun b2 : Booking => b2.id == bid) := by
        funext x
        show ((cancelRow db.clock bid x).id == bid) = (x.id == bid)
        rw [(cancelRow_fields db.clock bid x).2.2.2.1]
      rw [hpf, hf]
      show some (cancelRow db.clock bid b) = _
      unfold cancelRow
      rw [if_pos hfb]
    refine ⟨?_, hbk, hfind, ?_⟩
    · unfold cancel_booking
      rw [hf]
      simp [hcond]
    · exact hsecond (cancel_booking db bid).2 _ rfl hfind
  · intro ops i b h hs
    obtain ⟨b2, hb2, _, _, h3⟩ := run_row db ops i h
    exact ⟨b2, hb2, h3 hs⟩

/-- C6, witness: cancelling a missing id fails, cancelling the active
booking succeeds, cancelling it again fails with AlreadyCancelled, and a
cancelled row stays cancelled across further operations. -/
theorem C6_witness :
    cancel_booking dbOneActive 9999 = (.error .notFound, dbOneActive) ∧
    (cancel_booking dbOneActive 1).1 = .ok true ∧
    (cancel_booking (cancel_booking dbOneActive 1).2 1).1 =
      .error .alreadyCancelled ∧
    ∃ b2, (run dbOneCancelled
        [.create "Bob" "Single" "2024-02-01" "2024-02-03",
         .cancel 2]).bookings[0]? = some b2 ∧ b2.status = "cancelled" := by
  have h3 := (C6_cancel_transitions dbOneActive 1).2.2.1
    ⟨1, 1, "Ann", "2024-01-10", "2024-01-12", "active", 0, none⟩ (by rfl) (by decide)
  exact ⟨(C6_cancel_transitions dbOneActive 9999).1 (by rfl),
    h3.1, h3.2.2.2,
    (C6_cancel_transitions dbOneCancelled 1).2.2.2
      [.create "Bob" "Single" "2024-02-01" "2024-02-03", .cancel 2] 0
      ⟨1, 1, "Ann", "2024-01-10", "2024-01-12", "cancelled", 0, some 1⟩
      (by rfl) (by rfl)⟩

/-- C8: every booking in a state reachable from the empty ledger satisfies
check_out > check_in on the parsed dates, and no operation ever changes the
check_in or check_out of a stored row (rows are only appended, or updated
by cancellation which touches only status and cancelled_at). -/
theorem C8_range_validity :
    (∀ ops : List Op, ∀ b ∈ (run init_db ops).bookings, RangeOk b) ∧
    (∀ (db : DB) (ops : List Op) (i : Nat) (b : Booking),
      db.bookings[i]? = some b →
      ∃ b2, (run db ops).bookings[i]? = some b2 ∧
        b2.check_in = b.check_in ∧ b2.check_out = b.check_out) := by
  constructor
  · intro ops
    exact run_preserves_ranges (fun b hb => absurd hb (List.not_mem_nil b))
  · intro db ops i b h
    obtain ⟨b2, hb2, e1, e2, _⟩ := run_row db ops i h
    exact ⟨b2, hb2, e1, e2⟩

/-- C8, witness: the booking admitted by a concrete create has a valid
range, and cancelling it leaves its dates unchanged. -/
theorem C8_witness :
    RangeOk (⟨1, 1, "Ann", "2024-01-10", "2024-01-12", "active", 0, none⟩ : Booking) ∧
    ∃ b2, (run dbOneActive [.cancel 1]).bookings[0]? = some b2 ∧
      b2.check_in = "2024-01-10" ∧ b2.check_out = "2024-01-12" := by
  constructor
  · exact C8_range_validity.1 [.create "Ann" "Single" "2024-01-10" "2024-01-12"]
      ⟨1, 1, "Ann", "2024-01-10", "2024-01-12", "active", 0, none⟩ (by decide)
  · exact C8_range_validity.2 dbOneActive [.cancel 1] 0
      ⟨1, 1, "Ann", "2024-01-10", "2024-01-12", "active", 0, none⟩ (by rfl)

/-- C9, counterexample to the claim as stated: `list_bookings` guards the
filter with Python truthiness (`if status:`), so supplying the empty-string
status filter returns every booking instead of only the bookings whose
status is the empty string. -/
theorem C9_counterexample :
    (list_bookings dbOneActive (some "")).length = 1 ∧
    ∀ v ∈ list_bookings dbOneActive (some ""), v.booking.status ≠ "" := by
  constructor
  · rfl
  · decide

/-- C9 (amended): `list_bookings` returns the booking rows joined with
their room's type, number and rate, sorted by creation timestamp
descending; a non-empty status filter keeps exactly the bookings with that
status, while no filter or an empty-string filter returns all bookings.
The function only reads the state. -/
theorem C9_list_bookings (db : DB) (filt : Option String) :
    List.Sorted byCreatedDesc (list_bookings db filt) ∧
    (∀ s, filt = some s → s ≠ "" →
      (list_bookings db filt).Perm
        ((db.bookings.filter (fun b => b.status == s)).filterMap (joinRoom db))) ∧
    (filt = none ∨ filt = some "" →
      (list_bookings db filt).Perm (db.bookings.filterMap (joinRoom db))) := by
  refine ⟨?_, ?_, ?_⟩
  · exact List.sorted_insertionSort byCreatedDesc _
  · intro s hf hs
    subst hf
    show (List.insertionSort byCreatedDesc
        (List.filterMap (joinRoom db)
          (if s = "" then db.bookings
           else List.filter (fun b => b.status == s) db.bookings))).Perm _
    rw [if_neg hs]
    exact List.perm_insertionSort byCreatedDesc _
  · rintro (rfl | rfl)
    · exact List.perm_insertionSort byCreatedDesc _
    · show (List.insertionSort byCreatedDesc
          (List.filterMap (joinRoom db)
            (if ("" : String) = "" then db.bookings
             else List.filter (fun b => b.status == "") db.bookings))).Perm _
      rw [if_pos rfl]
      exact List.perm_insertionSort byCreatedDesc _

/-- C9, witness: a concrete filtered query and a concrete unfiltered query,
both as permutations of the corresponding joined ledger rows. -/
theorem C9_witness :
    (list_bookings dbOneActive (some "active")).Perm
      ((dbOneActive.bookings.filter (fun b => b.status == "active")).filterMap
        (joinRoom dbOneActive)) ∧
    (list_bookings dbOneActive none).Perm
      (dbOneActive.bookings.filterMap (joinRoom dbOneActive)) :=
  ⟨(C9_list_bookings dbOneActive (some "active")).2.1 "active" rfl (by decide),
   (C9_list_bookings dbOneActive none).2.2 (Or.inl rfl)⟩

/-- C10: cancelling a booking releases its room.  After a successful
cancellation of booking `b` on room `r`, if no other active booking on `r`
overlaps `b`'s stored interval (in the availability query's sense), then
`r` appears in `available_rooms` for `r`'s type over `b`'s interval, and a
subsequent CreateBooking for that type and interval is admitted
(availability looks only at rows whose status is active). -/
theorem C10_cancel_releases_room (db db2 : DB) (bid : Nat) (b : Booking) (r : Room)
    (g : String)
    (hfind : db.bookings.find? (fun x => x.id == bid) = some b)
    (hcancel : cancel_booking db bid = (.ok true, db2))
    (hr : r ∈ db.rooms) (hrid : b.room_id = r.id)
    (hno : ∀ x ∈ db.bookings, x.id ≠ bid →
      blocksQuery b.check_in b.check_out r.id x = false)
    (hrange : RangeOk b) :
    r ∈ available_rooms db2 r.room_type b.check_in b.check_out ∧
    ∃ res db3, create_booking db2 g r.room_type b.check_in b.check_out =
      (.ok res, db3) := by
  have hdb2 : db2 =
      { db with bookings := db.bookings.map (cancelRow db.clock bid),
                clock := db.clock + 1 } := by
    unfold cancel_booking at hcancel
    split at hcancel
    · next heq =>
      rw [hfind] at heq
      exact Option.noConfusion heq
    · next b2 heq =>
      rw [hfind] at heq
      injection heq with heq
      subst heq
      split at hcancel
      · exact Except.noConfusion (congrArg Prod.fst hcancel)
      · exact (congrArg Prod.snd hcancel).symm
  have havail : r ∈ available_rooms db2 r.room_type b.check_in b.check_out := by
    rw [mem_available_rooms]
    refine ⟨by rw [hdb2]; exact hr, rfl, ?_⟩
    intro x hx
    rw [hdb2] at hx
    obtain ⟨y, hy, rfl⟩ := List.mem_map.mp hx
    by_cases hid : y.id = bid
    · have : cancelRow db.clock bid y =
          { y with status := "cancelled", cancelled_at := some db.clock } := by
        unfold cancelRow
        rw [if_pos (by simp [hid])]
      rw [this]
      unfold blocksQuery
      simp
    · have : cancelRow db.clock bid y = y := by
        unfold cancelRow
        rw [if_neg (by simp [hid])]
      rw [this]
      exact hno y hy hid
  refine ⟨havail, ?_⟩
  obtain ⟨dci, dco, pci, pco, hlt⟩ := hrange
  obtain ⟨room, tail, he⟩ :
      ∃ room tail, available_rooms db2 r.room_type b.check_in b.check_out =
        room :: tail := by
    cases h0 : available_rooms db2 r.room_type b.check_in b.check_out with
    | nil =>
      rw [h0] at havail
      exact absurd havail (List.not_mem_nil r)
    | cons a l => exact ⟨a, l, rfl⟩
  have hle : dateLe dco dci = false := by
    rw [dateLe_eq_not_dateLt, hlt]
    rfl
  exact ⟨(db2.next_booking_id, room), _,
    (create_booking_branches db2 g r.room_type b.check_in b.check_out).2.2.2
      dci dco room tail pci pco hle he⟩

/-- C10, witness: cancelling the only booking on S101 makes S101 available
again for the same interval and a new admission succeeds. -/
theorem C10_witness :
    (⟨1, "Single", "S101", 1500⟩ : Room) ∈
      available_rooms (cancel_booking dbOneActive 1).2 "Single"
        "2024-01-10" "2024-01-12" ∧
    ∃ res db3, create_booking (cancel_booking dbOneActive 1).2 "Bea" "Single"
        "2024-01-10" "2024-01-12" = (.ok res, db3) :=
  C10_cancel_releases_room dbOneActive (cancel_booking dbOneActive 1).2 1
    ⟨1, 1, "Ann", "2024-01-10", "2024-01-12", "active", 0, none⟩
    ⟨1, "Single", "S101", 1500⟩ "Bea" (by rfl) (by rfl) (by decide) rfl
    (by decide) ⟨⟨2024, 1, 10⟩, ⟨2024, 1, 12⟩, by decide, by decide, by decide⟩

/-! ### Sanity checks of the embedding -/

example : parse_date "2024-01-05" = some ⟨2024, 1, 5⟩ := by decide
example : parse_date "2024-1-5" = some ⟨2024, 1, 5⟩ := by decide
example : parse_date "2024-13-05" = none := by decide
example : parse_date "2024-02-30" = none := by decide
example : parse_date "2024-02-29" = some ⟨2024, 2, 29⟩ := by decide
example : parse_date "2023-02-29" = none := by decide
example : parse_date "24-01-05" = none := by decide
example : parse_date "2024-01-055" = none := by decide
example : parse_date "0000-01-05" = none := by decide
example : canonicalDate "2024-01-05" = true := by decide
example : canonicalDate "2024-1-5" = false := by decide
example : strLe "2024-1-5" "2024-01-07" = false := by decide
example : strGe "2024-1-5" "2024-01-07" = true := by decide

end Hotel
